import Mathlib

/-!
Shallow embedding of `pyramid_registration/mongodb.py` (MongoDB registration
backend): user documents with embedded access tokens and linked accounts,
token issuance/verification with lazy purge of expired tokens, account
activation, and user creation.

Modelling conventions:
* The MongoDB `users` collection is a `List User`; `find_one` is `List.find?`;
  `update(filter, ...)` without `multi` updates the first matching document,
  modelled by `updateFirst`.
* Instants (`datetime.datetime.utcnow()`) are `Int` values passed in as `now`;
  `datetime.timedelta(days=30)` is `thirtyDays` (seconds).
* Python's random source is an oracle: a function `Nat → Nat` supplying the
  index of each `random.choice` pick / each `random.randint` draw.
* The unbounded `while True:` loops get an explicit fuel parameter; running
  out of fuel yields `none`, so non-termination of the source loop appears as
  `∀ fuel, result = none`.
* Python dynamic errors (`TypeError`) raised by `add_user` are modelled with
  `Except PyError`.
-/

namespace PyramidRegistration

/-- An element of a user's `access_tokens` array: `{"token": ..., "timestamp": ...}`. -/
structure AccessToken where
  token : String
  timestamp : Int
deriving Repr, DecidableEq

/-- An element of a user's `linked_accounts` array. `add_user` writes
`account_type`/`account_id` and the optional display names; a `token` field can
only come from outside this module (Mongo documents are schemaless), and is the
field `activate` filters on. -/
structure LinkedAccount where
  account_type : String
  account_id : String
  first_name : Option String
  last_name : Option String
  token : Option String
deriving Repr, DecidableEq

/-- A document of the `users` collection. -/
structure User where
  _id : Nat
  username : String
  password : Option String
  email : Option String
  linked_accounts : List LinkedAccount
  access_tokens : List AccessToken
  activated_timestamp : Option Int
deriving Repr, DecidableEq

/-- The MongoDB database handle: its `users` collection. -/
structure DB where
  users : List User
deriving Repr, DecidableEq

/-- Default retention window: `datetime.timedelta(days=30)`, in seconds. -/
def thirtyDays : Int := 2592000

/-- Update the first document matching the filter `p` (pymongo `update` with
default `multi=False`); no matching document means no change. -/
def updateFirst (p : User → Bool) (f : User → User) : List User → List User
  | [] => []
  | u :: rest => if p u then f u :: rest else u :: updateFirst p f rest

/-- Source: `_lookup_access_token(db, access_token)` —
`db.users.find_one({"access_tokens.token": access_token})`. -/
def _lookup_access_token (db : DB) (access_token : String) : Option User :=
  db.users.find? (fun u => u.access_tokens.any (fun tok => tok.token == access_token))

/-- Source: `string.ascii_uppercase + string.digits`, the alphabet
`random.choice` draws from in `_generate_access_token`. -/
def tokenAlphabet : List Char :=
  "ABCDEFGHIJKLMNOPQRSTUVWXYZ0123456789".toList

/-- Source: `_generate_access_token()` — 32 independent `random.choice` picks
from `tokenAlphabet`, joined. `rng i` is the oracle for the i-th pick; a real
`random.choice` always returns an in-range element, modelled by `% 36`. -/
def _generate_access_token (rng : Nat → Nat) : String :=
  String.mk ((List.range 32).map (fun i => tokenAlphabet.getD (rng i % 36) 'A'))

/-- Source: `lookup_username(db, username)` —
`db.users.find_one({"username": username})`. -/
def lookup_username (db : DB) (username : String) : Option User :=
  db.users.find? (fun u => u.username == username)

/-- Source: `_generate_temp_username()` — `"user%d" % random.randint(0, 99999999)`.
`r` is the oracle draw; `randint` is inclusive on `0..99999999`, modelled by
`% 100000000`. -/
def _generate_temp_username (r : Nat) : String :=
  "user" ++ toString (r % 100000000)

/-- Source: `_purge_old_tokens(db, user_id, timedelta=None)` — `$pull` from the
user's `access_tokens` every element with `timestamp ≤ now - timedelta`;
a falsy `timedelta` (absent or zero) defaults to 30 days. -/
def _purge_old_tokens (db : DB) (user_id : Nat) (now : Int) (timedelta : Option Int) : DB :=
  let td : Int := match timedelta with
    | none => thirtyDays
    | some v => if v == 0 then thirtyDays else v
  let expiry : Int := now - td
  ⟨updateFirst (fun u => u._id == user_id)
    (fun u => { u with access_tokens :=
        u.access_tokens.filter (fun tok => !(tok.timestamp ≤ expiry : Bool)) })
    db.users⟩

/-- Source: `_store_access_token(db, user_id, token)` — purge the user's old
tokens, then `$push` `{"token": token, "timestamp": utcnow()}` onto the user's
`access_tokens`. -/
def _store_access_token (db : DB) (user_id : Nat) (token : String) (now : Int) : DB :=
  let db1 := _purge_old_tokens db user_id now none
  ⟨updateFirst (fun u => u._id == user_id)
    (fun u => { u with access_tokens := u.access_tokens ++ [⟨token, now⟩] })
    db1.users⟩

/-- Source: the `while True:` loop body of `make_temp_username(db)`; `i` counts
the draws already taken from the oracle `rng`, `fuel` bounds the iterations we
unfold (the source loop is unbounded). -/
def make_temp_usernameAux (db : DB) (rng : Nat → Nat) (i : Nat) : Nat → Option String
  | 0 => none
  | fuel + 1 =>
    let username := _generate_temp_username (rng i)
    if (lookup_username db username).isNone then some username
    else make_temp_usernameAux db rng (i + 1) fuel

/-- Source: `make_temp_username(db)` — generate-and-retry until the candidate
username is not in the database. -/
def make_temp_username (db : DB) (rng : Nat → Nat) (fuel : Nat) : Option String :=
  make_temp_usernameAux db rng 0 fuel

/-- Source: `MongoDBRegistrationBackend.activate(token)` —
`db.users.update({"linked_accounts.token": token}, {"$set": {"activated_timestamp": utcnow()}})`:
set `activated_timestamp` on the first user having a linked account whose
`token` field equals the given token; silently does nothing when none matches. -/
def activate (db : DB) (token : String) (now : Int) : DB :=
  ⟨updateFirst (fun u => u.linked_accounts.any (fun la => la.token == some token))
    (fun u => { u with activated_timestamp := some now })
    db.users⟩

/-- Source: `MongoDBRegistrationBackend.verify_access_token(token)` — look up
the owning user; if none return `None`; else purge that user's expired tokens
and look up again, returning `str(user_doc["_id"])` when still present.
Returns the result together with the (possibly purged) database state. -/
def verify_access_token (db : DB) (token : String) (now : Int) : Option String × DB :=
  match _lookup_access_token db token with
  | none => (none, db)
  | some user_doc =>
    let db2 := _purge_old_tokens db user_doc._id now none
    match _lookup_access_token db2 token with
    | some u2 => (some (toString u2._id), db2)
    | none => (none, db2)

/-- Source: the `while True:` loop of `issue_access_token` — generate a
candidate token, break when `_lookup_access_token` finds no user owning it.
`rngs i` is the oracle for the i-th candidate, `fuel` bounds the unfolded
iterations of the unbounded source loop. -/
def issueLoop (db : DB) (rngs : Nat → Nat → Nat) (i : Nat) : Nat → Option String
  | 0 => none
  | fuel + 1 =>
    let token := _generate_access_token (rngs i)
    if (_lookup_access_token db token).isNone then some token
    else issueLoop db rngs (i + 1) fuel

/-- Source: `MongoDBRegistrationBackend.issue_access_token(user_id)` — loop
until a globally-fresh token is generated, store it for `user_id` (purging that
user's old tokens first), and return it together with the new database state. -/
def issue_access_token (db : DB) (user_id : Nat) (now : Int)
    (rngs : Nat → Nat → Nat) (fuel : Nat) : Option (String × DB) :=
  match issueLoop db rngs 0 fuel with
  | none => none
  | some token => some (token, _store_access_token db user_id token now)

/-- Python dynamic error raised during `add_user`. -/
inductive PyError where
  | typeError (msg : String)
deriving Repr, DecidableEq

/-- The deserialized `AddUserSchema` struct: every field is optional
(`missing=None`). Claims quantify over structurally valid inputs, so colander
validation itself is not modelled. -/
structure AddUserStruct where
  username : Option String
  email : Option String
  password : Option String
  facebook_id : Option String
  facebook_first_name : Option String
  facebook_last_name : Option String
deriving Repr, DecidableEq

/-- Python truthiness of an optional string field (`if d["..."]:`). -/
def truthy : Option String → Bool
  | none => false
  | some s => !(s == "")

/-- Modelled from the spec: HashProvider.hash — `bcrypt.hashpw` in `_hash_pw`
is an external one-way hash; modelled as an opaque-looking injective tag. -/
def _hash_pw (pw : String) : String :=
  "bcrypt$" ++ pw

/-- The `linked_account` dict built inside `add_user` when `facebook_id` is
truthy: `account_type "fb"`, the given id, and the optional display names.
No `token` field is ever written. -/
def mkLinkedAccount (d : AddUserStruct) : LinkedAccount :=
  { account_type := "fb"
    account_id := d.facebook_id.getD ""
    first_name := if truthy d.facebook_first_name then d.facebook_first_name else none
    last_name := if truthy d.facebook_last_name then d.facebook_last_name else none
    token := none }

/-- The `new_user` dict of `add_user` as built before the `linked_accounts`
step (username, optional password hash, optional email). -/
structure NewUserDoc where
  username : String
  password : Option String
  email : Option String
deriving Repr, DecidableEq

/-- Source: `MongoDBRegistrationBackend.add_user(struct)`, translated
faithfully including its dynamic errors:
* when `username` is falsy, the code runs `username = make_temp_username()`,
  calling the module-level `make_temp_username(db)` without its required `db`
  argument — a `TypeError` at the call;
* when `facebook_id` is truthy, after building `linked_account` the code runs
  `new_user["linked_accounts":[linked_account]]`, indexing a dict with a slice
  — `TypeError: unhashable type: 'slice'`;
* otherwise the code reaches `self.db.insert(new_user, safe=True)`: a pymongo
  `Database` has no `insert` method, so `self.db.insert` is the auto-created
  collection named "insert", and calling a `Collection` raises `TypeError`;
  and the method has no `return` statement in any case.
The `.ok` branch (database state plus returned user id) is unreachable. -/
def add_user (db : DB) (d : AddUserStruct) : Except PyError (DB × Option Nat) :=
  if truthy d.username then
    let username := d.username.getD ""
    let new_user : NewUserDoc :=
      { username := username
        password := if truthy d.password then some (_hash_pw (d.password.getD "")) else none
        email := if truthy d.email then d.email else none }
    if truthy d.facebook_id then
      let linked_account := mkLinkedAccount d
      let _ := linked_account
      Except.error (PyError.typeError "unhashable type: 'slice'")
    else
      let _ := new_user
      let _ := db
      Except.error (PyError.typeError "'Collection' object is not callable")
  else
    Except.error
      (PyError.typeError "make_temp_username() takes exactly 1 argument (0 given)")

/-- Database states reachable from an empty store using only `add_user` to
create users. -/
inductive ReachableByAddUser : DB → Prop
  | init : ReachableByAddUser ⟨[]⟩
  | step {db db' : DB} {d : AddUserStruct} {r : Option Nat} :
      ReachableByAddUser db → add_user db d = Except.ok (db', r) → ReachableByAddUser db'

/-- Predicate of the Mongo filter `{"access_tokens.token": t}`: the user owns
an access token with string `t`. -/
def hasTok (t : String) (u : User) : Bool :=
  u.access_tokens.any (fun tok => tok.token == t)

/-- Predicate of the Mongo filter `{"linked_accounts.token": t}` used by
`activate`. -/
def matchesActivation (t : String) (u : User) : Bool :=
  u.linked_accounts.any (fun la => la.token == some t)

theorem lookup_access_token_eq_find? (db : DB) (t : String) :
    _lookup_access_token db t = db.users.find? (hasTok t) := rfl

theorem updateFirst_of_forall_false {p : User → Bool} {f : User → User} :
    ∀ {l : List User}, (∀ u ∈ l, p u = false) → updateFirst p f l = l := by
  intro l
  induction l with
  | nil => intro _; rfl
  | cons u rest ih =>
    intro h
    have hu : p u = false := h u (List.mem_cons_self u rest)
    have hstep : updateFirst p f (u :: rest) = u :: updateFirst p f rest := by
      simp [updateFirst, hu]
    rw [hstep, ih (fun v hv => h v (List.mem_cons_of_mem u hv))]

theorem mem_updateFirst {p : User → Bool} {f : User → User} :
    ∀ {l : List User} {v : User}, v ∈ updateFirst p f l → v ∈ l ∨ ∃ u ∈ l, v = f u := by
  intro l
  induction l with
  | nil => intro v hv; exact absurd hv (by simp [updateFirst])
  | cons u rest ih =>
    intro v hv
    by_cases hu : p u = true
    · simp only [updateFirst, if_pos hu, List.mem_cons] at hv
      rcases hv with hv | hv
      · exact Or.inr ⟨u, List.mem_cons_self u rest, hv⟩
      · exact Or.inl (List.mem_cons_of_mem u hv)
    · simp only [updateFirst, if_neg hu, List.mem_cons] at hv
      rcases hv with hv | hv
      · exact Or.inl (hv ▸ List.mem_cons_self u rest)
      · rcases ih hv with hv' | ⟨w, hw, hvw⟩
        · exact Or.inl (List.mem_cons_of_mem u hv')
        · exact Or.inr ⟨w, List.mem_cons_of_mem u hw, hvw⟩

theorem find?_updateFirst_self {p : User → Bool} {f : User → User}
    (hpf : ∀ u, p (f u) = p u) :
    ∀ {l : List User}, (updateFirst p f l).find? p = (l.find? p).map f := by
  intro l
  induction l with
  | nil => rfl
  | cons u rest ih =>
    by_cases hu : p u = true
    · simp only [updateFirst, if_pos hu]
      rw [List.find?_cons_of_pos _ ((hpf u).trans hu), List.find?_cons_of_pos _ hu]
      rfl
    · simp only [updateFirst, if_neg hu]
      rw [List.find?_cons_of_neg _ hu, List.find?_cons_of_neg _ hu, ih]

theorem find?_updateFirst_fresh {q p : User → Bool} {f : User → User}
    (hf : ∀ u, q (f u) = true) :
    ∀ {l : List User}, (∀ u ∈ l, q u = false) →
      (updateFirst p f l).find? q = (l.find? p).map f := by
  intro l
  induction l with
  | nil => intro _; rfl
  | cons u rest ih =>
    intro h0
    have hqu : q u = false := h0 u (List.mem_cons_self u rest)
    by_cases hu : p u = true
    · simp only [updateFirst, if_pos hu]
      rw [List.find?_cons_of_pos _ (hf u), List.find?_cons_of_pos _ hu]
      rfl
    · simp only [updateFirst, if_neg hu]
      rw [List.find?_cons_of_neg _ (by simp [hqu]), List.find?_cons_of_neg _ hu]
      exact ih (fun v hv => h0 v (List.mem_cons_of_mem u hv))

theorem find?_updateFirst2_fresh {q p : User → Bool} {f g : User → User}
    (hg : ∀ u, q (g (f u)) = true) (hpf : ∀ u, p (f u) = p u) :
    ∀ {l : List User}, (∀ u ∈ l, q u = false) →
      (updateFirst p g (updateFirst p f l)).find? q = (l.find? p).map (fun u => g (f u)) := by
  intro l
  induction l with
  | nil => intro _; rfl
  | cons u rest ih =>
    intro h0
    have hqu : q u = false := h0 u (List.mem_cons_self u rest)
    by_cases hu : p u = true
    · simp only [updateFirst, if_pos hu, if_pos ((hpf u).trans hu)]
      rw [List.find?_cons_of_pos _ (hg u), List.find?_cons_of_pos _ hu]
      rfl
    · simp only [updateFirst, if_neg hu,
        if_neg (fun hc => hu ((hpf u).symm.trans hc))]
      rw [List.find?_cons_of_neg _ (by simp [hqu]), List.find?_cons_of_neg _ hu]
      exact ih (fun v hv => h0 v (List.mem_cons_of_mem u hv))

theorem find?_decomp {p : User → Bool} :
    ∀ {l : List User} {a : User}, l.find? p = some a →
      ∃ l1 l2, l = l1 ++ a :: l2 ∧ ∀ x ∈ l1, p x = false := by
  intro l
  induction l with
  | nil => intro a h; exact absurd h (by simp)
  | cons u rest ih =>
    intro a h
    by_cases hu : p u = true
    · rw [List.find?_cons_of_pos _ hu] at h
      refine ⟨[], rest, ?_, by simp⟩
      rw [Option.some.inj h]
      rfl
    · rw [List.find?_cons_of_neg _ hu] at h
      obtain ⟨l1, l2, hsplit, hl1⟩ := ih h
      refine ⟨u :: l1, l2, by simp [hsplit], ?_⟩
      intro x hx
      rcases List.mem_cons.mp hx with rfl | hx'
      · exact Bool.not_eq_true _ ▸ hu
      · exact hl1 x hx'

theorem updateFirst_append {p : User → Bool} {f : User → User} {u₀ : User} {l2 : List User}
    (h2 : p u₀ = true) :
    ∀ {l1 : List User}, (∀ u ∈ l1, p u = false) →
      updateFirst p f (l1 ++ u₀ :: l2) = l1 ++ f u₀ :: l2 := by
  intro l1
  induction l1 with
  | nil => intro _; simp [updateFirst, if_pos h2]
  | cons v rest ih =>
    intro h1
    have hv : p v = false := h1 v (List.mem_cons_self v rest)
    have hstep : updateFirst p f ((v :: rest) ++ u₀ :: l2)
        = v :: updateFirst p f (rest ++ u₀ :: l2) := by
      simp [updateFirst, hv]
    rw [hstep, ih (fun w hw => h1 w (List.mem_cons_of_mem v hw))]
    rfl

theorem hasTok_filter_false {t : String} {q : AccessToken → Bool} {u : User}
    (h : hasTok t u = false) :
    hasTok t { u with access_tokens := u.access_tokens.filter q } = false := by
  cases hft : hasTok t { u with access_tokens := u.access_tokens.filter q } with
  | false => rfl
  | true =>
    exfalso
    rw [← Bool.not_eq_true] at h
    simp only [hasTok, List.any_eq_true] at hft h
    obtain ⟨tok, htokmem, htok⟩ := hft
    exact h ⟨tok, (List.mem_filter.mp htokmem).1, htok⟩

theorem hasTok_push {t : String} {now : Int} (u : User) :
    hasTok t { u with access_tokens := u.access_tokens ++ [⟨t, now⟩] } = true := by
  simp only [hasTok, List.any_eq_true]
  exact ⟨⟨t, now⟩, List.mem_append_right _ (List.mem_singleton_self _), beq_self_eq_true t⟩

theorem hasTok_filter_of_mem {t : String} {q : AccessToken → Bool} {u : User}
    (tok : AccessToken) (hmem : tok ∈ u.access_tokens) (ht : (tok.token == t) = true)
    (hq : q tok = true) :
    hasTok t { u with access_tokens := u.access_tokens.filter q } = true := by
  simp only [hasTok, List.any_eq_true]
  exact ⟨tok, List.mem_filter.mpr ⟨hmem, hq⟩, ht⟩

theorem now_not_expired (now : Int) : ¬ now ≤ now - thirtyDays :=
  not_le.mpr (sub_lt_self now (by norm_num [thirtyDays]))

theorem add_user_eq_error (db : DB) (d : AddUserStruct) :
    ∃ e, add_user db d = Except.error e := by
  unfold add_user
  by_cases h1 : truthy d.username
  · by_cases h2 : truthy d.facebook_id
    · exact ⟨PyError.typeError "unhashable type: 'slice'", by simp [h1, h2]⟩
    · exact ⟨PyError.typeError "'Collection' object is not callable", by simp [h1, h2]⟩
  · exact ⟨PyError.typeError "make_temp_username() takes exactly 1 argument (0 given)",
      by simp [h1]⟩

theorem reachable_eq_empty {db : DB} (h : ReachableByAddUser db) : db = ⟨[]⟩ := by
  induction h with
  | init => rfl
  | step _ hok _ =>
    obtain ⟨e, he⟩ := add_user_eq_error _ _
    rw [he] at hok
    exact absurd hok (by simp)

/-- The document transformer of the `$pull` in `_purge_old_tokens` with the
default retention window, at instant `now`. -/
def purgeTok (now : Int) (u : User) : User :=
  { u with access_tokens :=
      u.access_tokens.filter (fun tok => !(tok.timestamp ≤ now - thirtyDays : Bool)) }

/-- The document transformer of the `$push` in `_store_access_token`. -/
def pushTok (t : String) (now : Int) (u : User) : User :=
  { u with access_tokens := u.access_tokens ++ [⟨t, now⟩] }

/-- Predicate of the Mongo filter `{"_id": user_id}`. -/
def idMatch (user_id : Nat) (u : User) : Bool :=
  u._id == user_id

theorem purge_default_eq (db : DB) (user_id : Nat) (now : Int) :
    _purge_old_tokens db user_id now none
      = ⟨updateFirst (idMatch user_id) (purgeTok now) db.users⟩ := rfl

theorem store_eq (db : DB) (user_id : Nat) (t : String) (now : Int) :
    _store_access_token db user_id t now
      = ⟨updateFirst (idMatch user_id) (pushTok t now)
          (updateFirst (idMatch user_id) (purgeTok now) db.users)⟩ := rfl

theorem issueLoop_fresh {db : DB} {rngs : Nat → Nat → Nat} :
    ∀ {fuel i t}, issueLoop db rngs i fuel = some t → _lookup_access_token db t = none := by
  intro fuel
  induction fuel with
  | zero => intro i t h; exact absurd h (by simp [issueLoop])
  | succ n ih =>
    intro i t h
    unfold issueLoop at h
    by_cases hl : (_lookup_access_token db (_generate_access_token (rngs i))).isNone = true
    · rw [if_pos hl] at h
      rcases Option.some.inj h with rfl
      exact Option.isNone_iff_eq_none.mp hl
    · rw [if_neg hl] at h
      exact ih h

theorem store_then_verify (db : DB) (user_id : Nat) (now : Int) (t : String)
    (hfresh : _lookup_access_token db t = none)
    (hpresent : ∃ u ∈ db.users, idMatch user_id u = true) :
    (verify_access_token (_store_access_token db user_id t now) t now).fst
      = some (toString user_id) := by
  have hnone : ∀ u ∈ db.users, hasTok t u = false := by
    intro u hu
    have h := List.find?_eq_none.mp hfresh u hu
    simpa [hasTok] using h
  obtain ⟨u₀, hfind0⟩ :=
    Option.isSome_iff_exists.mp (List.find?_isSome.mpr hpresent)
  have hid0 : u₀._id = user_id := by
    have h := List.find?_some hfind0
    simpa [idMatch] using h
  have hpurgedNone : ∀ u ∈ updateFirst (idMatch user_id) (purgeTok now) db.users,
      hasTok t u = false := by
    intro v hv
    rcases mem_updateFirst hv with hvl | ⟨u, hu, rfl⟩
    · exact hnone v hvl
    · exact hasTok_filter_false (hnone u hu)
  have hp_purge : ∀ u, idMatch user_id (purgeTok now u) = idMatch user_id u := fun _ => rfl
  have hp_push : ∀ u, idMatch user_id (pushTok t now u) = idMatch user_id u := fun _ => rfl
  have hfind_purged : (updateFirst (idMatch user_id) (purgeTok now) db.users).find?
      (idMatch user_id) = some (purgeTok now u₀) := by
    rw [find?_updateFirst_self hp_purge, hfind0]
    rfl
  have hlook1 : _lookup_access_token (_store_access_token db user_id t now) t
      = some (pushTok t now (purgeTok now u₀)) := by
    show (updateFirst (idMatch user_id) (pushTok t now)
        (updateFirst (idMatch user_id) (purgeTok now) db.users)).find? (hasTok t)
      = some (pushTok t now (purgeTok now u₀))
    have hq_push : ∀ u, hasTok t (pushTok t now u) = true := fun u => hasTok_push u
    rw [find?_updateFirst_fresh hq_push hpurgedNone, hfind_purged]
    rfl
  have hsurvives : ∀ u, hasTok t (purgeTok now (pushTok t now u)) = true := by
    intro u
    refine hasTok_filter_of_mem ⟨t, now⟩
      (List.mem_append_right _ (List.mem_singleton_self _)) (beq_self_eq_true t) ?_
    simp [now_not_expired now]
  have hudoc_id : (pushTok t now (purgeTok now u₀))._id = user_id := hid0
  have hlook2 : _lookup_access_token
      (_purge_old_tokens (_store_access_token db user_id t now)
        (pushTok t now (purgeTok now u₀))._id now none) t
      = some (purgeTok now (pushTok t now (purgeTok now u₀))) := by
    rw [hudoc_id]
    show (updateFirst (idMatch user_id) (purgeTok now)
        (updateFirst (idMatch user_id) (pushTok t now)
          (updateFirst (idMatch user_id) (purgeTok now) db.users))).find? (hasTok t)
      = some (purgeTok now (pushTok t now (purgeTok now u₀)))
    rw [find?_updateFirst2_fresh hsurvives hp_push hpurgedNone, hfind_purged]
    rfl
  have hfinal_id : (purgeTok now (pushTok t now (purgeTok now u₀)))._id = user_id := hid0
  simp only [verify_access_token, hlook1, hlook2, hfinal_id]

/-- C1: for every user id present in the store, when `issue_access_token`
returns a token string, immediately calling `verify_access_token` with that
token returns that user's id as a string. -/
theorem issued_token_verifies (db : DB) (user_id : Nat) (now : Int)
    (rngs : Nat → Nat → Nat) (fuel : Nat) (t : String) (db' : DB)
    (hpresent : ∃ u ∈ db.users, u._id = user_id)
    (hissue : issue_access_token db user_id now rngs fuel = some (t, db')) :
    (verify_access_token db' t now).fst = some (toString user_id) := by
  unfold issue_access_token at hissue
  cases hloop : issueLoop db rngs 0 fuel with
  | none => rw [hloop] at hissue; exact absurd hissue (by simp)
  | some tok =>
    rw [hloop] at hissue
    have htok : tok = t ∧ _store_access_token db user_id tok now = db' := by
      have h := Option.some.inj hissue
      exact ⟨congrArg Prod.fst h, congrArg Prod.snd h⟩
    obtain ⟨rfl, hdb'⟩ := htok
    rw [← hdb']
    refine store_then_verify db user_id now tok (issueLoop_fresh hloop) ?_
    obtain ⟨u, hu, hid⟩ := hpresent
    exact ⟨u, hu, by simp [idMatch, hid]⟩

/-- Fixture: a store holding a single user with id 1 and no tokens. -/
def alice : User := ⟨1, "alice", none, none, [], [], none⟩

def aliceDB : DB := ⟨[alice]⟩

/-- The token the all-zeros oracle generates: 32 copies of the first alphabet
character. -/
def tok32 : String := "AAAAAAAAAAAAAAAAAAAAAAAAAAAAAAAA"

/-- The store after issuing `tok32` to user 1 at instant 10000000. -/
def aliceDBAfter : DB := ⟨[⟨1, "alice", none, none, [], [⟨tok32, 10000000⟩], none⟩]⟩

/-- Witness for C1 at a concrete store, user, oracle and instant. -/
theorem issued_token_verifies_witness :
    (∃ u ∈ aliceDB.users, u._id = 1) ∧
    issue_access_token aliceDB 1 10000000 (fun _ _ => 0) 1 = some (tok32, aliceDBAfter) ∧
    (verify_access_token aliceDBAfter tok32 10000000).fst = some (toString 1) :=
  ⟨by decide, by decide,
    issued_token_verifies aliceDB 1 10000000 (fun _ _ => 0) 1 tok32 aliceDBAfter
      (by decide) (by decide)⟩

theorem purgeTok_no_expired (now : Int) (u : User) :
    ∀ tok ∈ (purgeTok now u).access_tokens, ¬ tok.timestamp ≤ now - thirtyDays := by
  intro tok htok
  have hp := (List.mem_filter.mp htok).2
  simpa using hp

theorem pushTok_no_expired (t : String) (now : Int) (u : User)
    (h : ∀ tok ∈ u.access_tokens, ¬ tok.timestamp ≤ now - thirtyDays) :
    ∀ tok ∈ (pushTok t now u).access_tokens, ¬ tok.timestamp ≤ now - thirtyDays := by
  intro tok htok
  rcases List.mem_append.mp htok with hmem | hmem
  · exact h tok hmem
  · rcases List.mem_singleton.mp hmem with rfl
    exact now_not_expired now

/-- C2: after a purge-triggering call — `issue_access_token` for a given user,
or `verify_access_token` matching a user — the targeted user document contains
no access token whose timestamp is at most `now` minus the 30-day retention
window. -/
theorem purge_removes_expired (db : DB) (now : Int) :
    (∀ user_id rngs fuel t db' u,
      issue_access_token db user_id now rngs fuel = some (t, db') →
      db'.users.find? (idMatch user_id) = some u →
      ∀ tok ∈ u.access_tokens, ¬ tok.timestamp ≤ now - thirtyDays)
    ∧ (∀ t0 u0 w, _lookup_access_token db t0 = some u0 →
      (verify_access_token db t0 now).snd.users.find? (idMatch u0._id) = some w →
      ∀ tok ∈ w.access_tokens, ¬ tok.timestamp ≤ now - thirtyDays) := by
  constructor
  · intro user_id rngs fuel t db' u hissue hfind tok htok
    unfold issue_access_token at hissue
    cases hloop : issueLoop db rngs 0 fuel with
    | none => rw [hloop] at hissue; exact absurd hissue (by simp)
    | some tk =>
      rw [hloop] at hissue
      have hdb' : _store_access_token db user_id tk now = db' :=
        congrArg Prod.snd (Option.some.inj hissue)
      rw [← hdb'] at hfind
      have hfind' : (updateFirst (idMatch user_id) (pushTok tk now)
          (updateFirst (idMatch user_id) (purgeTok now) db.users)).find? (idMatch user_id)
          = some u := hfind
      have hp_purge : ∀ v, idMatch user_id (purgeTok now v) = idMatch user_id v :=
        fun _ => rfl
      have hp_push : ∀ v, idMatch user_id (pushTok tk now v) = idMatch user_id v :=
        fun _ => rfl
      rw [find?_updateFirst_self hp_push, find?_updateFirst_self hp_purge] at hfind'
      cases hf : db.users.find? (idMatch user_id) with
      | none => rw [hf] at hfind'; exact absurd hfind' (by simp)
      | some u₀ =>
        rw [hf] at hfind'
        have hu : pushTok tk now (purgeTok now u₀) = u := by simpa using hfind'
        rw [← hu] at htok
        exact pushTok_no_expired tk now (purgeTok now u₀) (purgeTok_no_expired now u₀) tok htok
  · intro t0 u0 w hlook hfind tok htok
    have hsnd : (verify_access_token db t0 now).snd
        = ⟨updateFirst (idMatch u0._id) (purgeTok now) db.users⟩ := by
      simp only [verify_access_token, hlook]
      cases h2 : _lookup_access_token (_purge_old_tokens db u0._id now none) t0 with
      | none => simp only [h2]; rfl
      | some u2 => simp only [h2]; rfl
    rw [hsnd] at hfind
    have hfind' : (updateFirst (idMatch u0._id) (purgeTok now) db.users).find? (idMatch u0._id)
        = some w := hfind
    have hp_purge : ∀ v, idMatch u0._id (purgeTok now v) = idMatch u0._id v := fun _ => rfl
    rw [find?_updateFirst_self hp_purge] at hfind'
    cases hf : db.users.find? (idMatch u0._id) with
    | none => rw [hf] at hfind'; exact absurd hfind' (by simp)
    | some w₀ =>
      rw [hf] at hfind'
      have hw : purgeTok now w₀ = w := by simpa using hfind'
      rw [← hw] at htok
      exact purgeTok_no_expired now w₀ tok htok

/-- Fixture: a store holding one user with id 1 and one expired token
(timestamp 0, checked at instant 10000000 with a 2592000-second window). -/
def bob : User := ⟨1, "bob", none, none, [], [⟨"OLDTOKEN", 0⟩], none⟩

def bobDB : DB := ⟨[bob]⟩

/-- The store after issuing `tok32` to user 1 at instant 10000000: the expired
token is gone, only the fresh one remains. -/
def bobDBAfter : DB := ⟨[⟨1, "bob", none, none, [], [⟨tok32, 10000000⟩], none⟩]⟩

/-- The user document after the purge run by `verify_access_token "OLDTOKEN"`:
the expired token was pulled, nothing was pushed. -/
def bobPurged : User := ⟨1, "bob", none, none, [], [], none⟩

/-- Witness for C2: both purge-triggering calls, on a store with an expired
token, leave the targeted user with no expired tokens. -/
theorem purge_removes_expired_witness :
    (issue_access_token bobDB 1 10000000 (fun _ _ => 0) 1 = some (tok32, bobDBAfter)) ∧
    (∀ tok ∈ (⟨1, "bob", none, none, [], [⟨tok32, 10000000⟩], none⟩ : User).access_tokens,
      ¬ tok.timestamp ≤ 10000000 - thirtyDays) ∧
    (∀ tok ∈ bobPurged.access_tokens, ¬ tok.timestamp ≤ 10000000 - thirtyDays) :=
  ⟨by decide,
    (purge_removes_expired bobDB 10000000).1 1 (fun _ _ => 0) 1 tok32 bobDBAfter
      ⟨1, "bob", none, none, [], [⟨tok32, 10000000⟩], none⟩ (by decide) (by decide),
    (purge_removes_expired bobDB 10000000).2 "OLDTOKEN" bob bobPurged
      (by decide) (by decide)⟩

/-- C7: verifying a token owned by no user — in particular a token never
issued — returns the empty result and leaves the store unchanged; the source
path returns `None` without raising (the embedding is a total function). -/
theorem verify_unknown_token_none (db : DB) (t : String) (now : Int)
    (h : ∀ u ∈ db.users, hasTok t u = false) :
    verify_access_token db t now = (none, db) := by
  have hfind : _lookup_access_token db t = none := by
    rw [lookup_access_token_eq_find?]
    exact List.find?_eq_none.mpr (fun u hu => by simp [h u hu])
  simp only [verify_access_token, hfind]

/-- Witness for C7 at a concrete store and a never-issued token string. -/
theorem verify_unknown_token_none_witness :
    (∀ u ∈ aliceDB.users, hasTok "NEVERISSUED" u = false) ∧
    verify_access_token aliceDB "NEVERISSUED" 10000000 = (none, aliceDB) :=
  ⟨by decide, verify_unknown_token_none aliceDB "NEVERISSUED" 10000000 (by decide)⟩

/-- C3 (code bug): on a structurally valid input without a username,
`add_user` raises a `TypeError` — the module-level `make_temp_username(db)` is
called as `make_temp_username()` without its required argument — instead of
assigning a generated temporary username. -/
theorem add_user_missing_username_raises (db : DB) (d : AddUserStruct)
    (h : truthy d.username = false) :
    add_user db d
      = Except.error (PyError.typeError
          "make_temp_username() takes exactly 1 argument (0 given)") := by
  simp [add_user, h]

/-- Witness for C3 at the empty input struct. -/
theorem add_user_missing_username_raises_witness :
    truthy (AddUserStruct.mk none none none none none none).username = false ∧
    add_user aliceDB (AddUserStruct.mk none none none none none none)
      = Except.error (PyError.typeError
          "make_temp_username() takes exactly 1 argument (0 given)") :=
  ⟨by decide,
    add_user_missing_username_raises aliceDB (AddUserStruct.mk none none none none none none)
      (by decide)⟩

/-- C4 (code bug): with a facebook id present, the `linked_account` record is
built (account type "fb", the given id, optional display names), but attaching
it raises `TypeError` — the source indexes the dict with a slice,
`new_user["linked_accounts":[linked_account]]`, instead of assigning — so the
record never reaches a persisted user document. -/
theorem add_user_facebook_raises (db : DB) (d : AddUserStruct)
    (h1 : truthy d.username = true) (h2 : truthy d.facebook_id = true) :
    (mkLinkedAccount d).account_type = "fb" ∧
    (mkLinkedAccount d).account_id = d.facebook_id.getD "" ∧
    add_user db d = Except.error (PyError.typeError "unhashable type: 'slice'") :=
  ⟨rfl, rfl, by simp [add_user, h1, h2]⟩

/-- Fixture input for C4: valid username plus a facebook identity. -/
def daveInput : AddUserStruct :=
  AddUserStruct.mk (some "dave") none none (some "12345") (some "Dave") none

/-- Witness for C4 at a concrete linked-identity input. -/
theorem add_user_facebook_raises_witness :
    (truthy daveInput.username = true ∧ truthy daveInput.facebook_id = true) ∧
    ((mkLinkedAccount daveInput).account_type = "fb" ∧
      (mkLinkedAccount daveInput).account_id = daveInput.facebook_id.getD "" ∧
      add_user aliceDB daveInput
        = Except.error (PyError.typeError "unhashable type: 'slice'")) :=
  ⟨⟨by decide, by decide⟩,
    add_user_facebook_raises aliceDB daveInput (by decide) (by decide)⟩

/-- C5 (code bug): `add_user` never succeeds on any store and any input —
every path ends in a `TypeError` (missing `make_temp_username` argument, slice
indexing, or `self.db.insert` on a `Database`, plus a missing `return`) — so
it never persists a user document into `users` and never returns a new user
id. -/
theorem add_user_never_ok (db : DB) (d : AddUserStruct) :
    (add_user db d).isOk = false := by
  obtain ⟨e, he⟩ := add_user_eq_error db d
  rw [he]
  rfl

/-- C6: on every store reachable from the empty store using only `add_user`
to create users, `activate` is the identity for every token and no user has an
`activated_timestamp`. (A fortiori: `add_user` never writes a `token` field
into `linked_accounts` — in this code it never persists any user at all — so
the filter `linked_accounts.token` of `activate` can never match.) -/
theorem activate_never_activates_add_user_users (db : DB)
    (h : ReachableByAddUser db) (t : String) (now : Int) :
    activate db t now = db ∧ ∀ u ∈ db.users, u.activated_timestamp = none := by
  rcases reachable_eq_empty h with rfl
  exact ⟨rfl, fun u hu => absurd hu (List.not_mem_nil u)⟩

/-- Witness for C6 at the empty (initial) store. -/
theorem activate_never_activates_add_user_users_witness :
    activate ⟨[]⟩ "ACTTOK" 5 = ⟨[]⟩ ∧
    ∀ u ∈ (⟨[]⟩ : DB).users, u.activated_timestamp = none :=
  activate_never_activates_add_user_users ⟨[]⟩ ReachableByAddUser.init "ACTTOK" 5

/-- C8: `activate` with an unmatched token leaves every user unchanged; with a
matched token only the first matching user changes, and only by having
`activated_timestamp` set to `now` — the users before it (all non-matching)
and after it are untouched, and all its other fields are kept. -/
theorem activate_frame (db : DB) (t : String) (now : Int) :
    (db.users.find? (matchesActivation t) = none → activate db t now = db)
    ∧ (∀ u₀, db.users.find? (matchesActivation t) = some u₀ →
        ∃ l1 l2, db.users = l1 ++ u₀ :: l2
          ∧ (∀ v ∈ l1, matchesActivation t v = false)
          ∧ (activate db t now).users
              = l1 ++ { u₀ with activated_timestamp := some now } :: l2) := by
  constructor
  · intro hnone
    have hall : ∀ u ∈ db.users, matchesActivation t u = false := by
      intro u hu
      have h := List.find?_eq_none.mp hnone u hu
      simpa using h
    show DB.mk (updateFirst (matchesActivation t)
      (fun u => { u with activated_timestamp := some now }) db.users) = db
    rw [updateFirst_of_forall_false hall]
  · intro u₀ hfind
    obtain ⟨l1, l2, hsplit, hl1⟩ := find?_decomp hfind
    refine ⟨l1, l2, hsplit, hl1, ?_⟩
    have hmatch : matchesActivation t u₀ = true := List.find?_some hfind
    show updateFirst (matchesActivation t)
      (fun u => { u with activated_timestamp := some now }) db.users
      = l1 ++ { u₀ with activated_timestamp := some now } :: l2
    rw [hsplit, updateFirst_append hmatch hl1]

/-- Fixture: a user whose linked account carries an activation token (such a
field can only have been written by an external producer; `add_user` never
writes one). -/
def carol : User :=
  ⟨2, "carol", none, none, [⟨"fb", "99", none, none, some "ACTTOK"⟩], [], none⟩

def carolDB : DB := ⟨[alice, carol]⟩

/-- Witness for C8: an unmatched activation is the identity, and a matched one
updates exactly the matching user's `activated_timestamp`. -/
theorem activate_frame_witness :
    (activate aliceDB "ACTTOK" 5 = aliceDB) ∧
    (∃ l1 l2, carolDB.users = l1 ++ carol :: l2
      ∧ (∀ v ∈ l1, matchesActivation "ACTTOK" v = false)
      ∧ (activate carolDB "ACTTOK" 5).users
          = l1 ++ { carol with activated_timestamp := some 5 } :: l2) :=
  ⟨(activate_frame aliceDB "ACTTOK" 5).1 (by decide),
    (activate_frame carolDB "ACTTOK" 5).2 carol (by decide)⟩

/-- C9: the generate-check-retry loops of `make_temp_username` and
`issue_access_token` are unbounded and raise no resource-exhaustion error:
when every candidate the oracle produces already exists in the store, the loop
yields nothing no matter how much fuel is spent — the source `while True:`
never terminates. -/
theorem retry_loops_never_terminate :
    (∀ db rng i,
      (∀ j, (lookup_username db (_generate_temp_username (rng j))).isSome = true) →
      ∀ fuel, make_temp_usernameAux db rng i fuel = none)
    ∧ (∀ db rngs i,
      (∀ j, (_lookup_access_token db (_generate_access_token (rngs j))).isSome = true) →
      ∀ fuel, issueLoop db rngs i fuel = none) := by
  constructor
  · intro db rng i h fuel
    induction fuel generalizing i with
    | zero => rfl
    | succ n ih =>
      obtain ⟨a, ha⟩ := Option.isSome_iff_exists.mp (h i)
      simp only [make_temp_usernameAux]
      rw [ha, if_neg (by simp : ¬ (some a : Option User).isNone = true)]
      exact ih (i + 1)
  · intro db rngs i h fuel
    induction fuel generalizing i with
    | zero => rfl
    | succ n ih =>
      obtain ⟨a, ha⟩ := Option.isSome_iff_exists.mp (h i)
      simp only [issueLoop]
      rw [ha, if_neg (by simp : ¬ (some a : Option User).isNone = true)]
      exact ih (i + 1)

/-- Fixture: a store already containing the username the constant oracle keeps
proposing. -/
def tempUser : User := ⟨3, "user0", none, none, [], [], none⟩

def tempDB : DB := ⟨[tempUser]⟩

/-- Witness for C9: with every candidate taken, neither loop produces a result
at a concrete fuel. -/
theorem retry_loops_never_terminate_witness :
    make_temp_usernameAux tempDB (fun _ => 0) 0 5 = none ∧
    issueLoop aliceDBAfter (fun _ _ => 0) 0 5 = none :=
  ⟨retry_loops_never_terminate.1 tempDB (fun _ => 0) 0
      (fun _ => (by decide :
        (lookup_username tempDB (_generate_temp_username 0)).isSome = true)) 5,
    retry_loops_never_terminate.2 aliceDBAfter (fun _ _ => 0) 0
      (fun _ => (by decide :
        (_lookup_access_token aliceDBAfter
          (_generate_access_token (fun _ => 0))).isSome = true)) 5⟩

theorem tokenAlphabet_sound : ∀ k, k < 36 →
    (('A' ≤ tokenAlphabet.getD k 'A' ∧ tokenAlphabet.getD k 'A' ≤ 'Z')
      ∨ ('0' ≤ tokenAlphabet.getD k 'A' ∧ tokenAlphabet.getD k 'A' ≤ '9')) := by
  decide

/-- C10: every call of the token generator returns exactly 32 characters, each
drawn from the 36-symbol uppercase-letter/digit alphabet. -/
theorem generate_access_token_shape (rng : Nat → Nat) :
    (_generate_access_token rng).length = 32 ∧
    ∀ c ∈ (_generate_access_token rng).toList,
      (('A' ≤ c ∧ c ≤ 'Z') ∨ ('0' ≤ c ∧ c ≤ '9')) := by
  constructor
  · show ((List.range 32).map (fun i => tokenAlphabet.getD (rng i % 36) 'A')).length = 32
    rw [List.length_map, List.length_range]
  · intro c hc
    have hc' : c ∈ (List.range 32).map (fun i => tokenAlphabet.getD (rng i % 36) 'A') := hc
    obtain ⟨i, _, rfl⟩ := List.mem_map.mp hc'
    exact tokenAlphabet_sound (rng i % 36) (Nat.mod_lt _ (by norm_num))

/-- Witness for C10 at the constant-zero oracle and its first character. -/
theorem generate_access_token_shape_witness :
    (_generate_access_token (fun _ => 0)).length = 32 ∧
    ('A' ∈ (_generate_access_token (fun _ => 0)).toList ∧
      (('A' ≤ 'A' ∧ 'A' ≤ 'Z') ∨ ('0' ≤ 'A' ∧ 'A' ≤ '9'))) :=
  ⟨(generate_access_token_shape (fun _ => 0)).1,
    ⟨by decide, (generate_access_token_shape (fun _ => 0)).2 'A' (by decide)⟩⟩

end PyramidRegistration
